import Mathlib

/-!
Verification development for the emergency-room triage engine of the
`emergency112` repository (source files `app2.py` and `app3.py`).

The shallow embedding below translates, from the Python source:
  * the value-normalisation helpers used by both apps
    (Python `str(x).strip().upper()` and the `_safe_int` parser);
  * the eligibility evaluators `check_must` (app2.py) and
    `meets_requirements` (app3.py) together with both symptom rule tables;
  * the suitability scorer `suitability_score` (app2.py), including the
    exceptional path in its bonus-predicate loop;
  * the ranking pipeline of app3.py (rejected-filter, distance/freshness
    sort, eligibility partition, top-3 selection with ineligible padding,
    backup pool) and the top-3 fallback/sorting of app2.py;
  * the per-session candidate lifecycle state machine of app3.py
    (the Streamlit button handlers for search/refresh, call, accept and
    reject, and the ranking recomputation performed on every rerun).

Modelling conventions: a hospital record's raw feed cells are a total map
from column name to `Option String` (`none` models a Python `None` cell;
merged frames prefill every required column, so a wholly absent column is
not distinguished).  Float arithmetic of the scorer is modelled over `ℚ`,
with the decimal weight literals read exactly.  The geodesic distance
computation (external `geopy` collaborator) is out of scope: records carry
their computed `distance_km` value (`none` for a missing value).  Python
exceptions are modelled by `Option` results.
-/

/-! ## Python string primitives -/

/-- Python `str(x)` for a cell that is either a string or `None`. -/
def pyStr : Option String → String
  | none => "None"
  | some s => s

/-- Leading and trailing whitespace removal on the character list,
mirroring Python `str.strip()` (ASCII whitespace). -/
def trimChars (cs : List Char) : List Char :=
  ((cs.dropWhile (fun c => c.isWhitespace)).reverse.dropWhile
    (fun c => c.isWhitespace)).reverse

/-- Python `str(x).strip().upper()` (ASCII upper-casing), the
normalisation applied by both eligibility evaluators and the scorer
before comparing a stored cell with a required flag value. -/
def pyNorm (v : Option String) : String :=
  String.mk ((trimChars (pyStr v).data).map Char.toUpper)

/-- Digit-string value, `none` when empty or any character is not a
decimal digit.  This is the core of Python `int(s)` on the strings the
feed delivers (an optional sign handled one level up; Python's underscore
separators and non-ASCII digits are not modelled). -/
def digitsToNat (cs : List Char) : Option Nat :=
  cs.foldl (fun acc c =>
    match acc with
    | none => none
    | some n => if c.isDigit then some (10 * n + (c.toNat - 48)) else none)
    (if cs.isEmpty then none else some 0)

/-- Python `int(s)` on an already stripped string: optional sign followed
by decimal digits, `none` when unparsable (a raised `ValueError`). -/
def pyIntParse (s : String) : Option Int :=
  match s.data with
  | [] => none
  | c :: rest =>
    if c = '+' then (digitsToNat rest).map (fun n => (n : Int))
    else if c = '-' then (digitsToNat rest).map (fun n => -(n : Int))
    else (digitsToNat (c :: rest)).map (fun n => (n : Int))

/-- `_safe_int` from app2.py / app3.py:
strip the printed cell, treat the literal strings "", "None", "nan" as 0,
otherwise parse as an integer, any failure degrading to 0. -/
def pySafeInt (v : Option String) : Int :=
  let s := String.mk (trimChars (pyStr v).data)
  if s = "" ∨ s = "None" ∨ s = "nan" then 0
  else (pyIntParse s).getD 0

/-! ## Symptom rules and eligibility -/

/-- A required/bonus predicate value in app2.py's rule table: the Python
values are either a flag string (compared after normalisation) or an
integer minimum. -/
inductive Want where
  | flag (s : String)
  | num (n : Int)
deriving DecidableEq

/-- The six symptom categories of both rule tables (the Korean keys of
`SYMPTOM_RULES`, in table order: stroke, STEMI, major trauma, pediatric
critical, severe orthopedic, neurosurgical emergency). -/
inductive Symptom where
  | stroke | stemi | trauma | pediatric | ortho | neuro
deriving DecidableEq

/-- Scoring weights of an app2.py rule (`distance`, `beds_core`,
`equip`). -/
structure Weights where
  distance : ℚ
  bedsCore : ℚ
  equip : ℚ

/-- An app2.py symptom rule: `must`, `bonus`, `weights`. -/
structure Rule2 where
  must : List (String × Want)
  bonus : List (String × Want)
  weights : Weights

/-- `SYMPTOM_RULES` of app2.py. -/
def rules2 : Symptom → Rule2
  | .stroke =>
    ⟨[("hvctayn", .flag "Y"), ("hvicc", .num 1)],
     [("hv5", .num 1), ("hv6", .num 1)], ⟨-2.0, 1.2, 4.0⟩⟩
  | .stemi =>
    ⟨[("hvangioayn", .flag "Y"), ("hvoc", .num 1), ("hvicc", .num 1)],
     [], ⟨-2.0, 1.1, 4.5⟩⟩
  | .trauma =>
    ⟨[("hvventiayn", .flag "Y"), ("hvoc", .num 1), ("hvicc", .num 1)],
     [("hv9", .num 1)], ⟨-2.2, 1.3, 3.8⟩⟩
  | .pediatric =>
    ⟨[("hvncc", .num 1)],
     [("hv10", .flag "Y"), ("hv11", .flag "Y")], ⟨-1.8, 1.2, 3.5⟩⟩
  | .ortho =>
    ⟨[("hvoc", .num 1), ("hv3", .num 1), ("hvicc", .num 1)],
     [("hv4", .num 1)], ⟨-2.1, 1.0, 3.0⟩⟩
  | .neuro =>
    ⟨[("hvctayn", .flag "Y"), ("hv6", .num 1), ("hvicc", .num 1)],
     [], ⟨-2.0, 1.1, 4.0⟩⟩

/-- An app3.py symptom rule: `bool_any` and `min_ge1` (the display-only
`nice_to_have` list takes no part in eligibility or ranking). -/
structure Rule3 where
  boolAny : List (String × String)
  minGe1 : List (String × Int)

/-- `SYMPTOM_RULES` of app3.py. -/
def rules3 : Symptom → Rule3
  | .stroke => ⟨[("hvctayn", "Y")], [("hvicc", 1)]⟩
  | .stemi => ⟨[("hvangioayn", "Y")], [("hvoc", 1), ("hvicc", 1)]⟩
  | .trauma => ⟨[("hvventiayn", "Y")], [("hvoc", 1), ("hvicc", 1)]⟩
  | .pediatric => ⟨[("hv10", "Y"), ("hv11", "Y")], [("hvncc", 1)]⟩
  | .ortho => ⟨[], [("hvoc", 1), ("hv3", 1), ("hv4", 1)]⟩
  | .neuro => ⟨[("hvctayn", "Y")], [("hv6", 1), ("hvicc", 1)]⟩

/-- `check_must` from app2.py: early-return conjunction over the `must`
pairs; a string requirement compares the normalised cell with the wanted
flag, an integer requirement compares `_safe_int` of the cell with the
minimum. -/
def check_must (row : String → Option String) : List (String × Want) → Bool
  | [] => true
  | (k, w) :: rest =>
    match w with
    | .flag s => if pyNorm (row k) == s then check_must row rest else false
    | .num n => if pySafeInt (row k) < n then false else check_must row rest

/-- First loop of `meets_requirements` (app3.py): every `bool_any` pair
must match after normalisation (early return on the first failure). -/
def boolAnyOk (row : String → Option String) : List (String × String) → Bool
  | [] => true
  | (k, want) :: rest =>
    if pyNorm (row k) == want then boolAnyOk row rest else false

/-- Second loop of `meets_requirements` (app3.py): every `min_ge1` pair
must have `_safe_int` of the cell at least the threshold. -/
def minGe1Ok (row : String → Option String) : List (String × Int) → Bool
  | [] => true
  | (k, thr) :: rest =>
    if pySafeInt (row k) < thr then false else minGe1Ok row rest

/-- `meets_requirements` from app3.py.  (The merged frame prefills every
required column, so the Python `row.get(key, "")` default for a wholly
absent column is unreachable; a `None` cell prints as "None" and fails
any flag comparison, exactly as in app2.py.) -/
def meets_requirements (row : String → Option String) (r : Rule3) : Bool :=
  boolAnyOk row r.boolAny && minGe1Ok row r.minGe1

/-! ## Suitability scorer (app2.py) -/

/-- Round-half-even to the nearest integer, the tie-breaking rule of
Python's built-in `round`. -/
def rhe (x : ℚ) : ℤ :=
  if x - ⌊x⌋ < 1/2 then ⌊x⌋
  else if 1/2 < x - ⌊x⌋ then ⌊x⌋ + 1
  else if ⌊x⌋ % 2 = 0 then ⌊x⌋ else ⌊x⌋ + 1

/-- Python `round(x, 1)`. -/
def round1 (x : ℚ) : ℚ := ((rhe (10 * x) : ℤ) : ℚ) / 10

/-- The final shaping of `suitability_score`:
`round(max(0.0, min(100.0, 50.0 + raw / 2.0)), 1)`. -/
def scoreShape (raw : ℚ) : ℚ := round1 (max 0 (min 100 (50 + raw / 2)))

/-- `float(row.get("distance_km") or 0.0)`: a missing distance, like a
zero one, contributes 0 (Python `or` takes the right operand on any falsy
value). -/
def effDist : Option ℚ → ℚ
  | none => 0
  | some x => if x = 0 then 0 else x

/-- Core-bed sum of `suitability_score`:
`_safe_int(hvec) + _safe_int(hvoc) + _safe_int(hvicc) + _safe_int(hvgc)`. -/
def coreBeds (row : String → Option String) : Int :=
  pySafeInt (row "hvec") + pySafeInt (row "hvoc")
    + pySafeInt (row "hvicc") + pySafeInt (row "hvgc")

/-- The always-counted equipment flags of `suitability_score`: how many of
CT, angiography, ventilator, MRI are stored as "Y". -/
def commonEquipCount (row : String → Option String) : Nat :=
  (["hvctayn", "hvangioayn", "hvventiayn", "hvmriayn"].filter
    (fun k => pyNorm (row k) == "Y")).length

/-- One iteration of the bonus loop of `suitability_score`:
`1 if (str(val).strip().upper() == "Y" or _safe_int(val) >= int(want)) else 0`.
Python's `or` short-circuits, so `int(want)` is only evaluated when the
flag test fails; when `want` is a non-numeric string (the pediatric rule
stores "Y" here) that evaluation raises `ValueError`, modelled as `none`. -/
def bonusFlag (row : String → Option String) (p : String × Want) : Option Bool :=
  if pyNorm (row p.1) == "Y" then some true
  else
    match p.2 with
    | .num n => some (decide (n ≤ pySafeInt (row p.1)))
    | .flag w =>
      (pyIntParse (String.mk (trimChars w.data))).map
        (fun n => decide (n ≤ pySafeInt (row p.1)))

/-- The bonus loop of `suitability_score` over a rule's `bonus` list:
the number of satisfied bonus predicates, or `none` when an iteration
raises. -/
def pyBonusCount (row : String → Option String) : List (String × Want) → Option Nat
  | [] => some 0
  | p :: rest =>
    match bonusFlag row p with
    | none => none
    | some b => (pyBonusCount row rest).map (fun k => (if b then 1 else 0) + k)

/-- `suitability_score` from app2.py over exact rationals.  The distance
argument stands for the row's `distance_km` cell; the result is `none`
when the bonus loop raises. -/
def suitability_score (row : String → Option String) (dist : Option ℚ)
    (sym : Symptom) : Option ℚ :=
  let r := rules2 sym
  (pyBonusCount row r.bonus).map (fun bc =>
    scoreShape (r.weights.distance * effDist dist
      + r.weights.bedsCore * ((min (coreBeds row) 50 : ℤ) : ℚ)
      + r.weights.equip * ((bc + commonEquipCount row : ℕ) : ℚ)))

/-- Satisfaction of one bonus predicate following the words of spec
section 4.2 step 3: a tri-state match (the stored flag is yes) or, for a
numeric threshold, `_safe_int` of the cell at least the threshold. -/
def specBonusSat (row : String → Option String) (p : String × Want) : Bool :=
  pyNorm (row p.1) == "Y" ||
    (match p.2 with
     | .num n => decide (n ≤ pySafeInt (row p.1))
     | .flag _ => false)

/-- Count of satisfied bonus predicates per spec section 4.2 step 3. -/
def specBonusCount (row : String → Option String) : List (String × Want) → Nat
  | [] => 0
  | p :: rest => (if specBonusSat row p then 1 else 0) + specBonusCount row rest

/-- Reference score computation, written to the steps of spec section 4.2
(for the refinement comparison of claim C2): raw distance term, capped
core-bed term, equipment bonus term, then `clamp(50 + raw/2, 0, 100)`
rounded to one decimal. -/
def spec_score (row : String → Option String) (d : ℚ) (sym : Symptom) : ℚ :=
  let r := rules2 sym
  let raw1 := r.weights.distance * d
  let raw2 := raw1 + r.weights.bedsCore * ((min (coreBeds row) 50 : ℤ) : ℚ)
  let raw3 := raw2 + r.weights.equip
      * ((specBonusCount row r.bonus + commonEquipCount row : ℕ) : ℚ)
  round1 (max 0 (min 100 (50 + raw3 / 2)))

/-! ## List utilities

The pandas `sort_values` calls are modelled by a deterministic
comparison sort; the claims below only quote orders produced by this
same sort, and tie order beyond the stated keys is not load-bearing
(pandas' default quicksort leaves it unspecified). -/

/-- Insert into a sorted list, keeping earlier elements first on ties. -/
def insertBy (le : α → α → Bool) (a : α) : List α → List α
  | [] => [a]
  | b :: bs => if le a b then a :: b :: bs else b :: insertBy le a bs

/-- Comparison sort used to model `sort_values`. -/
def sortBy (le : α → α → Bool) : List α → List α
  | [] => []
  | a :: as => insertBy le a (sortBy le as)

lemma mem_insertBy {le : α → α → Bool} {a x : α} :
    ∀ {l : List α}, x ∈ insertBy le a l ↔ x = a ∨ x ∈ l
  | [] => by simp [insertBy]
  | b :: bs => by
    simp only [insertBy]
    split
    · simp
    · simp only [List.mem_cons, mem_insertBy]
      tauto

lemma mem_sortBy {le : α → α → Bool} {x : α} :
    ∀ {l : List α}, x ∈ sortBy le l ↔ x ∈ l
  | [] => Iff.rfl
  | a :: as => by
    simp only [sortBy, mem_insertBy, List.mem_cons, mem_sortBy]

lemma length_insertBy {le : α → α → Bool} {a : α} :
    ∀ {l : List α}, (insertBy le a l).length = l.length + 1
  | [] => rfl
  | b :: bs => by
    simp only [insertBy]
    split
    · rfl
    · simp [length_insertBy]

lemma length_sortBy {le : α → α → Bool} :
    ∀ {l : List α}, (sortBy le l).length = l.length
  | [] => rfl
  | a :: as => by simp [sortBy, length_insertBy, length_sortBy]

lemma containsIffMem (l : List String) (a : String) :
    l.contains a = true ↔ a ∈ l := List.elem_iff

lemma takeAppendLeft (l1 l2 : List α) : (l1 ++ l2).take l1.length = l1 := by
  induction l1 with
  | nil => rfl
  | cons a as ih => simp [ih]

/-! ## Ranking pipeline of app3.py -/

/-- A merged hospital record as the app3.py ranking sees it: the join key
`hpid`, the computed `distance_km` cell (`none` models a missing value,
which pandas sorts last), and the remaining feed cells. -/
structure Rec where
  hpid : String
  dist : Option ℚ
  fields : String → Option String

/-- The `__fresh_m` sort key of app3.py:
`lambda s: 0 if s else 9999` over the `hvidate` cell. -/
def freshKey : Option String → Nat
  | none => 9999
  | some s => if s.data.isEmpty then 9999 else 0

/-- Freshness key of a record. -/
def freshOf (r : Rec) : Nat := freshKey (r.fields "hvidate")

/-- Strict distance order with a missing distance sorting last. -/
def dLt : Option ℚ → Option ℚ → Bool
  | some a, some b => decide (a < b)
  | some _, none => true
  | none, _ => false

/-- The lexicographic `sort_values(by=["distance_km", "__fresh_m"])`
comparison of app3.py. -/
def recLE (r s : Rec) : Bool :=
  dLt r.dist s.dist || (decide (r.dist = s.dist) && decide (freshOf r ≤ freshOf s))

/-- Sort records by ascending distance, freshness breaking ties. -/
def sortRecs (l : List Rec) : List Rec := sortBy recLE l

/-- The rejected-hospital filter of app3.py:
`all_merged[~all_merged["hpid"].isin(rejected_hospitals)]`. -/
def availOf (recs : List Rec) (rejected : List String) : List Rec :=
  recs.filter (fun r => !(rejected.contains r.hpid))

/-- The eligible partition (`_meets_conditions == True`). -/
def eligOf (recs : List Rec) (rejected : List String) (rule : Rule3) : List Rec :=
  (availOf recs rejected).filter (fun r => meets_requirements r.fields rule)

/-- The ineligible partition (`_meets_conditions == False`). -/
def inelOf (recs : List Rec) (rejected : List String) (rule : Rule3) : List Rec :=
  (availOf recs rejected).filter (fun r => !(meets_requirements r.fields rule))

/-- The ranking computation of app3.py (search-results block): filter out
rejected hospitals, sort the eligible ones by distance then freshness,
keep the first ten as the backup pool, take the top three, and when fewer
than three are eligible pad with the nearest ineligible hospitals.  The
first component carries each returned hospital id with its
`_meets_conditions` flag; the second is the backup pool's ids. -/
def rank3 (recs : List Rec) (rejected : List String) (rule : Rule3) :
    List (String × Bool) × List String :=
  let elig := sortRecs (eligOf recs rejected rule)
  let inel := sortRecs (inelOf recs rejected rule)
  let t := elig.take 3
  let top3 := t ++ inel.take (3 - t.length)
  (top3.map (fun r => (r.hpid, meets_requirements r.fields rule)),
   (elig.take 10).map (fun r => r.hpid))

/-! ## Top-3 fallback and sorting of app2.py -/

/-- A record as app2.py's `run_query_and_render` sees it after the merge
and distance computation. -/
structure Rec2 where
  hpid : String
  dist : Option ℚ
  fields : String → Option String

/-- `merged["score"] = merged.apply(lambda r: suitability_score(r, symptom), axis=1)`:
scores every record, `none` when any application raises. -/
def scoresOf (sym : Symptom) : List Rec2 → Option (List (Rec2 × ℚ))
  | [] => some []
  | r :: rest =>
    match suitability_score r.fields r.dist sym, scoresOf sym rest with
    | some q, some l => some ((r, q) :: l)
    | _, _ => none

/-- Non-strict distance order with a missing distance sorting last. -/
def dLe : Option ℚ → Option ℚ → Bool
  | some a, some b => decide (a ≤ b)
  | some _, none => true
  | none, some _ => false
  | none, none => true

/-- app2.py sort for the "suitability score" mode:
`sort_values(["score", "distance_km"], ascending=[False, True])`. -/
def leScoreDist (p q : Rec2 × ℚ) : Bool :=
  decide (q.2 < p.2) || (decide (p.2 = q.2) && dLe p.1.dist q.1.dist)

/-- app2.py sort for the "nearest" mode:
`sort_values(["distance_km", "score"], ascending=[True, False])`. -/
def leDistScore (p q : Rec2 × ℚ) : Bool :=
  dLt p.1.dist q.1.dist || (decide (p.1.dist = q.1.dist) && decide (q.2 ≤ p.2))

/-- Selection step of app2.py's `run_query_and_render` on the scored
rows: keep the rows passing `check_must`; when none passes fall back to
all rows; sort by the active mode; take the first three ids. -/
def app2Select (scored : List (Rec2 × ℚ)) (sym : Symptom) (byScore : Bool) :
    List String :=
  let mustOk := scored.filter (fun p => check_must p.1.fields (rules2 sym).must)
  let dfShow := if mustOk.isEmpty then scored else mustOk
  let sorted := if byScore then sortBy leScoreDist dfShow else sortBy leDistScore dfShow
  (sorted.take 3).map (fun p => p.1.hpid)

/-- app2.py's `run_query_and_render` from scoring to the displayed Top 3
ids; `none` when scoring raises (which aborts the whole query). -/
def app2Top3 (recs : List Rec2) (sym : Symptom) (byScore : Bool) :
    Option (List String) :=
  (scoresOf sym recs).map (fun scored => app2Select scored sym byScore)

/-! ## Candidate lifecycle state machine of app3.py -/

/-- Per-session Streamlit state of app3.py that the lifecycle claims are
about: the fetched records and active rule, `hospital_approval_status`,
`rejected_hospitals`, `pending_approval`, the ids of `top3_data`,
`backup_hospitals`, the `hospital_stack` ids, `approved_hospital`, and
`show_results`.  (The `rejection_log` and route caches carry no
lifecycle information and are omitted.) -/
structure Sess where
  records : List Rec
  rule : Rule3
  approval : List (String × String)
  rejected : List String
  pending : Bool
  top3 : List String
  backup : List String
  stack : List String
  approvedH : Option String
  showResults : Bool

/-- Python dict lookup on `hospital_approval_status`. -/
def lookupS : List (String × String) → String → Option String
  | [], _ => none
  | p :: ps, k => if p.1 == k then some p.2 else lookupS ps k

/-- Python dict assignment on `hospital_approval_status` (replace the
existing key in place, or append a new one). -/
def setS : List (String × String) → String → String → List (String × String)
  | [], k, v => [(k, v)]
  | p :: ps, k, v => if p.1 == k then (k, v) :: ps else p :: setS ps k v

/-- The `hospital_stack` append of app3.py: every top-3 id not already in
the stack is appended (the membership snapshot is taken before the
loop). -/
def pushStack (stack tids : List String) : List String :=
  stack ++ tids.filter (fun h => !(stack.contains h))

/-- The backfill of the reject handler (app3.py lines 969-979): from the
backup pool drop rejected ids, then ids already in the current top three;
when at least one candidate remains, the new top list is the old one
without rejected ids plus one backup candidate, otherwise `top3_data` is
left untouched (`none`). -/
def backfillUpdate (top3 backup rejected : List String) : Option (List String) :=
  let a1 := backup.filter (fun h => !(rejected.contains h))
  let avail := a1.filter (fun h => !(top3.contains h))
  if 1 ≤ avail.length then
    some (top3.filter (fun h => !(rejected.contains h)) ++ avail.take 1)
  else none

/-- The operator events driving the state machine: the search or refresh
button (carrying the freshly fetched records and the active rule), the
per-hospital call button, and the accept and reject buttons. -/
inductive Ev where
  | search (recs : List Rec) (rule : Rule3)
  | call (h : String)
  | accept (h : String)
  | reject (h : String)

/-- The ranking recomputation performed by every Streamlit rerun while
results are shown: `rank3` on the current records against the current
rejected set, plus the `hospital_stack` append. -/
def recompute (s : Sess) : Sess :=
  if s.showResults then
    let rb := rank3 s.records s.rejected s.rule
    { s with top3 := rb.1.map (fun p => p.1), backup := rb.2,
             stack := pushStack s.stack (rb.1.map (fun p => p.1)) }
  else s

/-- The button handlers of app3.py.
Search/refresh resets the approval map and the pending flag and clears
the cached ranking (the rejected set survives).  The call button is only
rendered while `pending_approval` holds, for a hospital with no recorded
status that sits in the current top three; it records "calling".  The
accept button is rendered for any hospital whose own status is "calling";
it records "approved" and clears `pending_approval`.  The reject button,
under the same guard, records "rejected", adds the id to
`rejected_hospitals` and attempts a backfill.  (The phone-number presence
check guarding the call button's rendering is not modelled.) -/
def handle : Sess → Ev → Sess
  | s, .search recs rule =>
    { s with records := recs, rule := rule, showResults := true,
             approval := [], pending := true, top3 := [], backup := [] }
  | s, .call h =>
    if s.pending && (lookupS s.approval h).isNone && s.top3.contains h then
      { s with approval := setS s.approval h "calling" }
    else s
  | s, .accept h =>
    if lookupS s.approval h == some "calling" then
      { s with approval := setS s.approval h "approved",
               approvedH := some h, pending := false }
    else s
  | s, .reject h =>
    if lookupS s.approval h == some "calling" then
      let rej := if s.rejected.contains h then s.rejected else s.rejected ++ [h]
      let s1 := { s with approval := setS s.approval h "rejected", rejected := rej }
      match backfillUpdate s1.top3 s1.backup s1.rejected with
      | some t => { s1 with top3 := t }
      | none => s1
    else s

/-- One operator action followed by the rerun's recomputation. -/
def step (s : Sess) (e : Ev) : Sess := recompute (handle s e)

/-- A session: a sequence of operator actions from an initial state. -/
def runT (s : Sess) (es : List Ev) : Sess := es.foldl step s

/-- How many hospitals the approval map currently records as approved. -/
def countApproved (s : Sess) : Nat :=
  (s.approval.filter (fun p => p.2 == "approved")).length

/-! ## Concrete instances -/

/-- An eligible stroke record (CT available, ICU beds, fresh report) at a
given distance; used to drive the lifecycle traces. -/
def rH (i : String) (d : ℚ) : Rec :=
  ⟨i, some d, fun k =>
    if k = "hvctayn" then some "Y"
    else if k = "hvicc" then some "2"
    else if k = "hvidate" then some "20250101120000"
    else none⟩

/-- The Streamlit initial session state: empty status maps, no results
shown yet. -/
def sInit : Sess :=
  ⟨[], rules3 .stroke, [], [], false, [], [], [], none, false⟩

/-- A session in which the operator searches, calls two hospitals in
turn, and then records acceptances from both. -/
def trace3 : List Ev :=
  [.search [rH "H1" 1, rH "H2" 2] (rules3 .stroke),
   .call "H1", .call "H2", .accept "H2", .accept "H1"]

/-- An ineligible far record with many emergency beds (high score). -/
def c5A : Rec2 :=
  ⟨"A", some 5, fun k =>
    if k = "hvec" then some "30"
    else if k = "hvctayn" then some "N" else none⟩

/-- An ineligible near record with no beds (low score). -/
def c5B : Rec2 := ⟨"B", some 1, fun _ => none⟩

/-- Four eligible stroke records at distances 1 to 4. -/
def c6recs : List Rec := [rH "R1" 1, rH "R2" 2, rH "R3" 3, rH "R4" 4]

/-- One eligible record between two ineligible ones. -/
def c7recs : List Rec :=
  [⟨"N1", some 1, fun _ => none⟩, rH "E1" 2, ⟨"N2", some 3, fun _ => none⟩]

/-- A row whose CT flag needs case-normalisation and whose ICU count is a
padded numeral. -/
def w1row : String → Option String := fun k =>
  if k = "hvctayn" then some " y " else if k = "hvicc" then some "03" else none

/-- A row on which the pediatric bonus loop raises: `hv10` stores "N", so
the flag test fails and `int("Y")` is evaluated. -/
def c2row : String → Option String := fun k =>
  if k = "hvncc" then some "2" else if k = "hv10" then some "N" else none

/-- An empty row: every cell missing. -/
def wEmptyRow : String → Option String := fun _ => none

/-- A session holding one rejected hospital and one hospital in calling
state. -/
def sW4 : Sess :=
  ⟨[rH "A" 1, rH "X" 2], rules3 .stroke, [("H1", "calling")], ["X"],
   true, ["H1"], [], ["H1"], none, true⟩

/-- Two records at the same distance with different known timestamps. -/
def w10a : Rec := ⟨"F1", some 2, fun k =>
  if k = "hvidate" then some "20250130141500" else none⟩

/-- Companion record for the freshness tie. -/
def w10b : Rec := ⟨"F2", some 2, fun k =>
  if k = "hvidate" then some "19990101000000" else none⟩

/-! ## Helper lemmas: rounding and score monotonicity -/

lemma rhe_le_add_half (x : ℚ) : (rhe x : ℚ) ≤ x + 1/2 := by
  have hf : ((⌊x⌋ : ℤ) : ℚ) ≤ x := Int.floor_le x
  unfold rhe
  split_ifs with h1 h2 h3 <;> push_cast <;> linarith

lemma sub_half_le_rhe (x : ℚ) : x - 1/2 ≤ (rhe x : ℚ) := by
  have hf : x < ((⌊x⌋ : ℤ) : ℚ) + 1 := Int.lt_floor_add_one x
  unfold rhe
  split_ifs with h1 h2 h3 <;> push_cast <;> linarith

lemma rhe_mono {x y : ℚ} (h : x ≤ y) : rhe x ≤ rhe y := by
  rcases eq_or_lt_of_le h with rfl | hlt
  · exact le_refl _
  · have h1 : (rhe x : ℚ) ≤ x + 1/2 := rhe_le_add_half x
    have h2 : y - 1/2 ≤ (rhe y : ℚ) := sub_half_le_rhe y
    have h3 : (rhe x : ℚ) < (rhe y : ℚ) + 1 := by linarith
    have h4 : rhe x < rhe y + 1 := by exact_mod_cast h3
    omega

lemma rhe_intCast (n : ℤ) : rhe ((n : ℤ) : ℚ) = n := by
  unfold rhe
  rw [Int.floor_intCast]
  rw [if_pos]
  norm_num

lemma round1_mono {x y : ℚ} (h : x ≤ y) : round1 x ≤ round1 y := by
  unfold round1
  have h1 : rhe (10 * x) ≤ rhe (10 * y) := rhe_mono (by linarith)
  have h2 : ((rhe (10 * x) : ℤ) : ℚ) ≤ ((rhe (10 * y) : ℤ) : ℚ) := by exact_mod_cast h1
  linarith

lemma round1_intCast (n : ℤ) : round1 ((n : ℤ) : ℚ) = (n : ℚ) := by
  unfold round1
  have h : (10 : ℚ) * ((n : ℤ) : ℚ) = (((10 * n : ℤ) : ℤ) : ℚ) := by push_cast; ring
  rw [h, rhe_intCast]
  push_cast
  ring

lemma scoreShape_mono {x y : ℚ} (h : x ≤ y) : scoreShape x ≤ scoreShape y := by
  unfold scoreShape
  apply round1_mono
  have h1 : min 100 (50 + x / 2) ≤ min 100 (50 + y / 2) :=
    min_le_min (le_refl _) (by linarith)
  exact max_le_max (le_refl _) h1

lemma effDist_some (d : ℚ) : effDist (some d) = d := by
  show (if d = 0 then 0 else d) = d
  split_ifs with h
  · exact h.symm
  · rfl

/-! ## Helper lemmas: eligibility and the bonus loop -/

lemma boolAnyOk_iff (row : String → Option String) :
    ∀ l : List (String × String),
      boolAnyOk row l = true ↔ ∀ p ∈ l, pyNorm (row p.1) = p.2
  | [] => by simp [boolAnyOk]
  | (k, want) :: rest => by
    simp only [boolAnyOk, List.mem_cons]
    split_ifs with h
    · rw [boolAnyOk_iff row rest]
      constructor
      · intro hall p hp
        rcases hp with rfl | hp
        · exact beq_iff_eq.mp h
        · exact hall p hp
      · intro hall p hp
        exact hall p (Or.inr hp)
    · simp only [false_iff]
      intro hall
      exact h (beq_iff_eq.mpr (hall (k, want) (Or.inl rfl)))

lemma minGe1Ok_iff (row : String → Option String) :
    ∀ l : List (String × Int),
      minGe1Ok row l = true ↔ ∀ p ∈ l, p.2 ≤ pySafeInt (row p.1)
  | [] => by simp [minGe1Ok]
  | (k, thr) :: rest => by
    simp only [minGe1Ok, List.mem_cons]
    split_ifs with h
    · simp only [false_iff]
      intro hall
      have h2 : thr ≤ pySafeInt (row k) := hall (k, thr) (Or.inl rfl)
      omega
    · rw [minGe1Ok_iff row rest]
      constructor
      · intro hall p hp
        rcases hp with rfl | hp
        · show thr ≤ pySafeInt (row k)
          omega
        · exact hall p hp
      · intro hall p hp
        exact hall p (Or.inr hp)

lemma check_must_iff (row : String → Option String) :
    ∀ l : List (String × Want),
      check_must row l = true ↔
        ∀ p ∈ l, (∀ s, p.2 = Want.flag s → pyNorm (row p.1) = s) ∧
                 (∀ n, p.2 = Want.num n → n ≤ pySafeInt (row p.1))
  | [] => by simp [check_must]
  | (k, w) :: rest => by
    cases w with
    | flag s =>
      simp only [check_must, List.mem_cons]
      split_ifs with h
      · rw [check_must_iff row rest]
        constructor
        · intro hall p hp
          rcases hp with rfl | hp
          · refine ⟨fun t ht => ?_, fun n hn => by cases hn⟩
            cases ht
            exact beq_iff_eq.mp h
          · exact hall p hp
        · intro hall p hp
          exact hall p (Or.inr hp)
      · simp only [false_iff]
        intro hall
        exact h (beq_iff_eq.mpr (((hall (k, .flag s) (Or.inl rfl)).1) s rfl))
    | num n =>
      simp only [check_must, List.mem_cons]
      split_ifs with h
      · simp only [false_iff]
        intro hall
        have h2 : n ≤ pySafeInt (row k) := ((hall (k, .num n) (Or.inl rfl)).2) n rfl
        omega
      · rw [check_must_iff row rest]
        constructor
        · intro hall p hp
          rcases hp with rfl | hp
          · refine ⟨fun t ht => ?_, fun m hm => ?_⟩
            · cases ht
            · cases hm
              show n ≤ pySafeInt (row k)
              omega
          · exact hall p hp
        · intro hall p hp
          exact hall p (Or.inr hp)

lemma bonusFlag_num (row : String → Option String) (k : String) (n : Int) :
    bonusFlag row (k, .num n) = some (specBonusSat row (k, .num n)) := by
  unfold bonusFlag specBonusSat
  split_ifs with h
  · simp only [h, Bool.true_or]
  · simp only [h, Bool.false_or]

lemma pyBonusCount_all_num (row : String → Option String) :
    ∀ l : List (String × Want), l.all (fun p => match p.2 with
        | .num _ => true
        | .flag _ => false) = true →
      pyBonusCount row l = some (specBonusCount row l)
  | [], _ => rfl
  | (k, w) :: rest, hl => by
    simp only [List.all_cons, Bool.and_eq_true] at hl
    cases w with
    | flag s => simp at hl
    | num n =>
      rw [pyBonusCount, bonusFlag_num row k n,
        pyBonusCount_all_num row rest hl.2]
      simp only [Option.map_some', specBonusCount]

/-! ## Helper lemmas: state machine -/

lemma recompute_rejected (s : Sess) : (recompute s).rejected = s.rejected := by
  unfold recompute
  split <;> rfl

lemma recompute_pending (s : Sess) : (recompute s).pending = s.pending := by
  unfold recompute
  split <;> rfl

lemma pushStack_self (st t : List String) :
    pushStack (pushStack st t) t = pushStack st t := by
  unfold pushStack
  have h : (t.filter fun x => !((st ++ t.filter fun y => !st.contains y).contains x))
      = [] := by
    rw [List.filter_eq_nil_iff]
    intro a ha
    have hmem : a ∈ st ++ t.filter fun y => !st.contains y := by
      by_cases hst : a ∈ st
      · exact List.mem_append_left _ hst
      · refine List.mem_append_right _ (List.mem_filter.mpr ⟨ha, ?_⟩)
        rw [Bool.not_eq_true', ← Bool.not_eq_true]
        intro hc
        exact hst ((containsIffMem st a).mp hc)
    rw [Bool.not_eq_true, Bool.not_eq_false']
    exact (containsIffMem _ a).mpr hmem
  rw [h, List.append_nil]

lemma recompute_recompute (s : Sess) : recompute (recompute s) = recompute s := by
  unfold recompute
  by_cases hs : s.showResults = true
  · simp [hs, pushStack_self]
  · simp [hs]

lemma handle_accept_calling (s : Sess) (h : String)
    (hc : lookupS s.approval h = some "calling") :
    handle s (.accept h) =
      { s with approval := setS s.approval h "approved",
               approvedH := some h, pending := false } := by
  simp [handle, hc]

lemma handle_call_notPending (s : Sess) (h : String) (hp : s.pending = false) :
    handle s (.call h) = s := by
  simp [handle, hp]

/-! ## Helper lemmas: ranking membership -/

lemma hpid_ne_of_avail {recs : List Rec} {rejected : List String} {r : Rec}
    (hr : r ∈ availOf recs rejected) {h : String} (hm : h ∈ rejected) :
    r.hpid ≠ h := by
  have h2 := (List.mem_filter.mp hr).2
  intro heq
  rw [heq, Bool.not_eq_true', ← Bool.not_eq_true] at h2
  exact h2 ((containsIffMem rejected h).mpr hm)

lemma mem_rank3_top {recs : List Rec} {rejected : List String} {rule : Rule3}
    {p : String × Bool} (hp : p ∈ (rank3 recs rejected rule).1) :
    ∃ r ∈ availOf recs rejected, p.1 = r.hpid := by
  simp only [rank3, List.mem_map] at hp
  obtain ⟨r, hr, hpr⟩ := hp
  refine ⟨r, ?_, by rw [← hpr]⟩
  rcases List.mem_append.mp hr with h1 | h1
  · have := mem_sortBy.mp (List.mem_of_mem_take h1)
    exact (List.mem_filter.mp this).1
  · have := mem_sortBy.mp (List.mem_of_mem_take h1)
    exact (List.mem_filter.mp this).1

lemma mem_rank3_backup {recs : List Rec} {rejected : List String} {rule : Rule3}
    {h : String} (hp : h ∈ (rank3 recs rejected rule).2) :
    ∃ r ∈ availOf recs rejected, h = r.hpid := by
  simp only [rank3, List.mem_map] at hp
  obtain ⟨r, hr, hpr⟩ := hp
  have := mem_sortBy.mp (List.mem_of_mem_take hr)
  exact ⟨r, (List.mem_filter.mp this).1, hpr.symm⟩

/-! ## Claims -/

/-- C1: The eligibility evaluation (`check_must` in app2.py,
`meets_requirements` in app3.py) returns true if and only if every
required boolean pair matches the record's case-normalised stored value
and every required minimum pair is met by the record's bed count with
unknown or unparsable values treated as 0; in particular it is true when
both requirement sets are empty, and it is a total function of the row
(malformed and missing cells never raise, they simply fail or parse
to 0). -/
theorem claim_C1 :
    ∀ (row : String → Option String) (must : List (String × Want)) (r : Rule3),
      (check_must row must = true ↔
        ∀ p ∈ must, (∀ s, p.2 = Want.flag s → pyNorm (row p.1) = s) ∧
                    (∀ n, p.2 = Want.num n → n ≤ pySafeInt (row p.1))) ∧
      (meets_requirements row r = true ↔
        ((∀ p ∈ r.boolAny, pyNorm (row p.1) = p.2) ∧
         (∀ p ∈ r.minGe1, p.2 ≤ pySafeInt (row p.1)))) := by
  intro row must r
  refine ⟨check_must_iff row must, ?_⟩
  rw [meets_requirements, Bool.and_eq_true, boolAnyOk_iff row r.boolAny,
    minGe1Ok_iff row r.minGe1]

/-- Witness for C1 at a concrete row: a mixed-case padded CT flag " y "
and the zero-padded ICU count "03" satisfy the stroke requirements of
both evaluators. -/
theorem claim_C1_witness :
    check_must w1row (rules2 .stroke).must = true ∧
    meets_requirements w1row (rules3 .stroke) = true := by
  constructor
  · refine (claim_C1 w1row (rules2 .stroke).must (rules3 .stroke)).1.mpr ?_
    intro p hp
    fin_cases hp
    · exact ⟨fun s hs => (by cases hs; decide), fun n hn => (by cases hn)⟩
    · exact ⟨fun s hs => (by cases hs), fun n hn => (by cases hn; decide)⟩
  · exact (claim_C1 w1row (rules2 .stroke).must (rules3 .stroke)).2.mpr
      ⟨by decide, by decide⟩

/-- C10 (corrected): the freshness sort key of app3.py maps a missing
(or empty) last-updated cell to 9999 and any non-empty one to 0, so at
equal distance two records with known update times, however far apart,
compare as equal in both directions of the ranking order. -/
theorem claim_C10 :
    freshKey none = 9999 ∧ freshKey (some "") = 9999 ∧
    (∀ s : String, s ≠ "" → freshKey (some s) = 0) ∧
    (∀ r1 r2 : Rec, r1.dist = r2.dist →
      ∀ s1 s2, r1.fields "hvidate" = some s1 → s1 ≠ "" →
        r2.fields "hvidate" = some s2 → s2 ≠ "" →
        recLE r1 r2 = true ∧ recLE r2 r1 = true) := by
  refine ⟨rfl, rfl, ?_, ?_⟩
  · intro s hs
    rw [freshKey, if_neg]
    intro he
    exact hs (by cases s; simp_all)
  · intro r1 r2 hd s1 s2 h1 hs1 h2 hs2
    have hf1 : freshOf r1 = 0 := by
      rw [freshOf, h1, freshKey, if_neg]
      intro he
      exact hs1 (by cases s1; simp_all)
    have hf2 : freshOf r2 = 0 := by
      rw [freshOf, h2, freshKey, if_neg]
      intro he
      exact hs2 (by cases s2; simp_all)
    constructor
    · rw [recLE, hd, hf1, hf2]
      simp
    · rw [recLE, hd, hf1, hf2]
      simp

/-- Witness for C10: two records at distance 2 whose timestamps are a
2025 report and a 1999 report compare as equally fresh. -/
theorem claim_C10_witness :
    freshKey (some "20250130141500") = 0 ∧
    (recLE w10a w10b = true ∧ recLE w10b w10a = true) :=
  ⟨claim_C10.2.2.1 "20250130141500" (by decide),
   claim_C10.2.2.2 w10a w10b rfl "20250130141500" "19990101000000"
     rfl (by decide) rfl (by decide)⟩

/-- C3 counterexample: in the session that searches, starts calls to the
two ranked hospitals, and then records two acceptances, both hospital
ids end in the approved state — the accept button of a hospital already
in "calling" state is still live after another hospital was approved. -/
theorem claim_C3_counterexample :
    lookupS (runT sInit trace3).approval "H1" = some "approved" ∧
    lookupS (runT sInit trace3).approval "H2" = some "approved" ∧
    countApproved (runT sInit trace3) = 2 := by
  refine ⟨?_, ?_, ?_⟩ <;> decide

/-- C3 as amended: approving a hospital that is in "calling" state
clears the `pending_approval` flag, after which the call button is
disabled for every hospital (until a new search or refresh), so no
further hospital can move from pending to calling; a hospital already
in "calling" state, however, can still be approved. -/
theorem claim_C3_amended :
    ∀ (s : Sess) (h h2 : String),
      lookupS s.approval h = some "calling" →
      (step s (.accept h)).pending = false ∧
      step (step s (.accept h)) (.call h2) = step s (.accept h) := by
  intro s h h2 hc
  have hpend : (step s (.accept h)).pending = false := by
    rw [step, recompute_pending, handle_accept_calling s h hc]
  refine ⟨hpend, ?_⟩
  show recompute (handle (step s (.accept h)) (.call h2)) = step s (.accept h)
  rw [handle_call_notPending _ _ hpend]
  show recompute (recompute (handle s (.accept h))) = recompute (handle s (.accept h))
  exact recompute_recompute _

/-- Witness for the amended C3 at the concrete session `sW4`: after
accepting the calling hospital "H1", the pending flag is down and a call
attempt on "H2" leaves the state unchanged. -/
theorem claim_C3_amended_witness :
    lookupS sW4.approval "H1" = some "calling" ∧
    ((step sW4 (.accept "H1")).pending = false ∧
     step (step sW4 (.accept "H1")) (.call "H2") = step sW4 (.accept "H1")) :=
  ⟨by decide, claim_C3_amended sW4 "H1" "H2" (by decide)⟩

/-- C4: a rejected hospital id never resurfaces.  The rejected set only
ever grows across any operator event; a ranking computed against a
rejected set never lists a rejected id, neither in the (possibly padded)
top three nor in the backup pool; and a backfill replacement list, when
one is produced, contains no rejected id. -/
theorem claim_C4 :
    (∀ (s : Sess) (e : Ev) (h : String), h ∈ s.rejected → h ∈ (step s e).rejected) ∧
    (∀ (recs : List Rec) (rejected : List String) (rule : Rule3) (h : String),
      h ∈ rejected →
        ((rank3 recs rejected rule).1.map (fun p => p.1)).contains h = false ∧
        ((rank3 recs rejected rule).2).contains h = false) ∧
    (∀ (t b rej l : List String) (h : String),
      backfillUpdate t b rej = some l → h ∈ rej → l.contains h = false) := by
  refine ⟨?_, ?_, ?_⟩
  · intro s e h hm
    show h ∈ (recompute (handle s e)).rejected
    rw [recompute_rejected]
    cases e with
    | search recs rule => exact hm
    | call h2 =>
      simp only [handle]
      split
      · exact hm
      · exact hm
    | accept h2 =>
      simp only [handle]
      split
      · exact hm
      · exact hm
    | reject h2 =>
      simp only [handle]
      split
      · have hrej : h ∈ (if s.rejected.contains h2 then s.rejected
            else s.rejected ++ [h2]) := by
          split
          · exact hm
          · exact List.mem_append_left _ hm
        split
        · exact hrej
        · exact hrej
      · exact hm
  · intro recs rejected rule h hm
    constructor
    · rw [Bool.eq_false_iff]
      intro hc
      obtain ⟨p, hp, hph⟩ := List.mem_map.mp ((containsIffMem _ h).mp hc)
      obtain ⟨r, hr, hpr⟩ := mem_rank3_top hp
      exact hpid_ne_of_avail hr hm (by rw [← hpr, hph])
    · rw [Bool.eq_false_iff]
      intro hc
      obtain ⟨r, hr, hpr⟩ := mem_rank3_backup ((containsIffMem _ h).mp hc)
      exact hpid_ne_of_avail hr hm hpr.symm
  · intro t b rej l h hb hm
    unfold backfillUpdate at hb
    dsimp only at hb
    split_ifs at hb with hlen
    have hl := Option.some.inj hb
    rw [Bool.eq_false_iff]
    intro hc
    have hmem := (containsIffMem l h).mp hc
    rw [← hl] at hmem
    have hnot : ∀ x ∈ rej, (!(rej.contains x)) ≠ true := by
      intro x hx ht
      rw [Bool.not_eq_true', ← Bool.not_eq_true] at ht
      exact ht ((containsIffMem rej x).mpr hx)
    rcases List.mem_append.mp hmem with h1 | h1
    · exact hnot h hm (List.mem_filter.mp h1).2
    · have h2 := List.mem_filter.mp
        (List.mem_of_mem_take h1)
      exact hnot h hm (List.mem_filter.mp h2.1).2

/-- Witness for C4: the id "X" sits in the rejected set of `sW4`,
survives a search event there, is absent from a freshly computed ranking
and from a produced backfill replacement. -/
theorem claim_C4_witness :
    ("X" ∈ (step sW4 (.search [rH "A" 1, rH "X" 2] (rules3 .stroke))).rejected) ∧
    (((rank3 [rH "A" 1, rH "X" 2] ["X"] (rules3 .stroke)).1.map
        (fun p => p.1)).contains "X" = false ∧
      ((rank3 [rH "A" 1, rH "X" 2] ["X"] (rules3 .stroke)).2).contains "X" = false) ∧
    (["B1"] : List String).contains "X" = false :=
  ⟨claim_C4.1 sW4 (.search [rH "A" 1, rH "X" 2] (rules3 .stroke)) "X" (by decide),
   claim_C4.2.1 [rH "A" 1, rH "X" 2] ["X"] (rules3 .stroke) "X" (by decide),
   claim_C4.2.2 ["X"] ["B1"] ["X"] ["B1"] "X" (by decide) (by decide)⟩

/-! ## Helper lemmas: score evaluation -/

lemma suitability_unfold (row : String → Option String) (d : ℚ) (sym : Symptom)
    (bc : Nat) (hbc : pyBonusCount row (rules2 sym).bonus = some bc) :
    suitability_score row (some d) sym =
      some (scoreShape ((rules2 sym).weights.distance * d
        + (rules2 sym).weights.bedsCore * ((min (coreBeds row) 50 : ℤ) : ℚ)
        + (rules2 sym).weights.equip * ((bc + commonEquipCount row : ℕ) : ℚ))) := by
  unfold suitability_score
  dsimp only
  rw [hbc, effDist_some]
  rfl

lemma scoreShape_of_int (k : ℚ) (n : ℤ) (h : max 0 (min 100 (50 + k / 2)) = (n : ℚ)) :
    scoreShape k = (n : ℚ) := by
  rw [scoreShape, h, round1_intCast]

lemma clamp_mid (x : ℚ) (h0 : 0 ≤ x) (h100 : x ≤ 100) : max 0 (min 100 x) = x := by
  rw [min_eq_right h100, max_eq_right h0]

lemma scoreShape_mid (k : ℚ) (n : ℤ) (hk : 50 + k / 2 = (n : ℚ))
    (h0 : (0 : ℚ) ≤ (n : ℚ)) (h100 : ((n : ℚ)) ≤ 100) : scoreShape k = (n : ℚ) :=
  scoreShape_of_int k n (by rw [hk, clamp_mid _ h0 h100])

lemma score_c5A : suitability_score c5A.fields c5A.dist .stroke = some 63 := by
  show suitability_score c5A.fields (some 5) .stroke = some 63
  rw [suitability_unfold c5A.fields 5 .stroke 0 (by decide)]
  rw [show coreBeds c5A.fields = 30 from (by decide),
    show commonEquipCount c5A.fields = 0 from (by decide)]
  simp only [rules2]
  norm_num [show (min (30 : ℤ) 50) = (30 : ℤ) from (by decide)]
  rw [scoreShape_mid 26 63 (by norm_num) (by norm_num) (by norm_num)]
  norm_num

lemma score_c5B : suitability_score c5B.fields c5B.dist .stroke = some 49 := by
  show suitability_score c5B.fields (some 1) .stroke = some 49
  rw [suitability_unfold c5B.fields 1 .stroke 0 (by decide)]
  rw [show coreBeds c5B.fields = 0 from (by decide),
    show commonEquipCount c5B.fields = 0 from (by decide)]
  simp only [rules2]
  norm_num [show (min (0 : ℤ) 50) = (0 : ℤ) from (by decide)]
  rw [scoreShape_mid (-2) 49 (by norm_num) (by norm_num) (by norm_num)]
  norm_num

lemma scoresOf_c5 :
    scoresOf .stroke [c5A, c5B] = some [(c5A, 63), (c5B, 49)] := by
  rw [scoresOf, score_c5A, scoresOf, score_c5B]
  rfl

/-- C5 counterexample: with two records [A at 5 km, B at 1 km] and the
stroke rule, no record passes `check_must`, yet under app2.py's default
"suitability score" sort mode the fallback result is [A, B] while the
first three of the distance-ascending order are [B, A]: the app2.py
fallback orders by the active sort mode, not by distance, and carries no
per-entry ineligibility mark. -/
theorem claim_C5_counterexample :
    ([c5A, c5B].filter (fun r => check_must r.fields (rules2 .stroke).must)).isEmpty
      = true ∧
    app2Top3 [c5A, c5B] .stroke true = some ["A", "B"] ∧
    ((sortBy (fun a b => dLe a.dist b.dist) [c5A, c5B]).map
        (fun r => r.hpid)).take 3 = ["B", "A"] ∧
    (["A", "B"] : List String) ≠ ["B", "A"] := by
  refine ⟨by decide, ?_, by decide, by decide⟩
  show (scoresOf .stroke [c5A, c5B]).map
      (fun scored => app2Select scored .stroke true) = some ["A", "B"]
  rw [scoresOf_c5]
  show some (app2Select [(c5A, 63), (c5B, 49)] .stroke true) = some ["A", "B"]
  decide

/-- C5 as amended.  app3.py: when no available record is eligible, the
top three are the first three of all remaining records sorted by
distance (freshness breaking ties), each carrying an explicit false
`_meets_conditions` mark.  app2.py: when no record passes `check_must`,
the fallback sorts all scored records by the active sort mode
(suitability score descending by default, distance ascending otherwise)
and takes the first three, with no per-entry mark. -/
theorem claim_C5_amended :
    (∀ (recs : List Rec) (rejected : List String) (rule : Rule3),
      (eligOf recs rejected rule).isEmpty = true →
      (rank3 recs rejected rule).1 =
        ((sortRecs (availOf recs rejected)).take 3).map (fun r => (r.hpid, false))) ∧
    (∀ (recs : List Rec2) (sym : Symptom) (byScore : Bool)
        (scored : List (Rec2 × ℚ)),
      scoresOf sym recs = some scored →
      (scored.filter (fun p => check_must p.1.fields (rules2 sym).must)).isEmpty
          = true →
      app2Top3 recs sym byScore =
        some ((((if byScore then sortBy leScoreDist scored
            else sortBy leDistScore scored)).take 3).map (fun p => p.1.hpid))) := by
  constructor
  · intro recs rejected rule he
    have hnil : eligOf recs rejected rule = [] := List.isEmpty_iff.mp he
    have hall : ∀ r ∈ availOf recs rejected,
        meets_requirements r.fields rule = false := by
      intro r hr
      cases hmr : meets_requirements r.fields rule
      · rfl
      · have : r ∈ eligOf recs rejected rule := List.mem_filter.mpr ⟨hr, hmr⟩
        rw [hnil] at this
        cases this
    have hinel : inelOf recs rejected rule = availOf recs rejected := by
      rw [inelOf]
      apply List.filter_eq_self.mpr
      intro r hr
      rw [hall r hr]
      rfl
    unfold rank3
    dsimp only
    rw [hnil, hinel]
    show ((sortRecs (availOf recs rejected)).take (3 - 0)).map _ = _
    apply List.map_congr_left
    intro r hr
    rw [hall r (mem_sortBy.mp (List.mem_of_mem_take hr))]
  · intro recs sym byScore scored hsc he
    show (scoresOf sym recs).map (fun sc => app2Select sc sym byScore) = _
    rw [hsc]
    show some (app2Select scored sym byScore) = _
    unfold app2Select
    dsimp only
    rw [he]
    simp

/-- Witness for the amended C5: the two-record app2.py instance above,
under both sort modes, and a two-record app3.py instance with no
eligible hospital. -/
theorem claim_C5_witness :
    ((eligOf [⟨"P", some 2, fun _ => none⟩, ⟨"Q", some 1, fun _ => none⟩] []
        (rules3 .stroke)).isEmpty = true ∧
      (rank3 [⟨"P", some 2, fun _ => none⟩, ⟨"Q", some 1, fun _ => none⟩] []
          (rules3 .stroke)).1 =
        ((sortRecs (availOf [⟨"P", some 2, fun _ => none⟩,
            ⟨"Q", some 1, fun _ => none⟩] [])).take 3).map
          (fun r => (r.hpid, false))) ∧
    app2Top3 [c5A, c5B] .stroke false =
      some (((sortBy leDistScore [(c5A, 63), (c5B, 49)]).take 3).map
        (fun p => p.1.hpid)) :=
  ⟨⟨by decide, claim_C5_amended.1 _ [] (rules3 .stroke) (by decide)⟩,
   claim_C5_amended.2 [c5A, c5B] .stroke false [(c5A, 63), (c5B, 49)]
     scoresOf_c5 (by decide)⟩

/-- C6 counterexample: with four eligible stroke records at distances 1
to 4 km, app3.py's backup pool is the first ten of the sorted eligible
order — all four ids, including the displayed top three — while the
claim's "remaining eligible beyond the first top_n, capped at 10" would
be just the fourth. -/
theorem claim_C6_counterexample :
    (eligOf c6recs [] (rules3 .stroke)).isEmpty = false ∧
    (rank3 c6recs [] (rules3 .stroke)).2 = ["R1", "R2", "R3", "R4"] ∧
    (((sortRecs (eligOf c6recs [] (rules3 .stroke))).drop 3).take 10).map
        (fun r => r.hpid) = ["R4"] ∧
    (["R1", "R2", "R3", "R4"] : List String) ≠ ["R4"] := by
  refine ⟨by decide, by decide, by decide, by decide⟩

/-- C6 as amended: when the eligible set is non-empty the backup pool is
the first ten entries of the sorted eligible order — it contains the
displayed top three as well (already-surfaced ids are filtered out only
later, at backfill time) — and the ordered result starts with the first
min(3, number eligible) entries of the sorted eligible order, each
marked eligible. -/
theorem claim_C6_amended :
    ∀ (recs : List Rec) (rejected : List String) (rule : Rule3),
      (eligOf recs rejected rule).isEmpty = false →
      (rank3 recs rejected rule).2 =
        ((sortRecs (eligOf recs rejected rule)).take 10).map (fun r => r.hpid) ∧
      (rank3 recs rejected rule).1.take
          ((sortRecs (eligOf recs rejected rule)).take 3).length =
        ((sortRecs (eligOf recs rejected rule)).take 3).map
          (fun r => (r.hpid, true)) := by
  intro recs rejected rule _he
  constructor
  · rfl
  · unfold rank3
    dsimp only
    rw [List.map_append]
    rw [show ((sortRecs (eligOf recs rejected rule)).take 3).length =
        (((sortRecs (eligOf recs rejected rule)).take 3).map
          (fun r => (r.hpid, meets_requirements r.fields rule))).length from
      (List.length_map _ _).symm]
    rw [takeAppendLeft]
    apply List.map_congr_left
    intro r hr
    rw [(List.mem_filter.mp (mem_sortBy.mp (List.mem_of_mem_take hr))).2]

/-- Witness for the amended C6 at the four-record instance. -/
theorem claim_C6_witness :
    (eligOf c6recs [] (rules3 .stroke)).isEmpty = false ∧
    ((rank3 c6recs [] (rules3 .stroke)).2 =
        ((sortRecs (eligOf c6recs [] (rules3 .stroke))).take 10).map
          (fun r => r.hpid) ∧
      (rank3 c6recs [] (rules3 .stroke)).1.take
          ((sortRecs (eligOf c6recs [] (rules3 .stroke))).take 3).length =
        ((sortRecs (eligOf c6recs [] (rules3 .stroke))).take 3).map
          (fun r => (r.hpid, true))) :=
  ⟨by decide, claim_C6_amended c6recs [] (rules3 .stroke) (by decide)⟩

/-- C7: when fewer than three hospitals are eligible, the ordered result
is the sorted eligible records (each marked eligible, flag true)
followed by the nearest ineligible records, every padding entry carrying
the explicit false `_meets_conditions` mark, so eligible and padding
entries are distinguishable. -/
theorem claim_C7 :
    ∀ (recs : List Rec) (rejected : List String) (rule : Rule3),
      (eligOf recs rejected rule).length < 3 →
      (rank3 recs rejected rule).1 =
        (sortRecs (eligOf recs rejected rule)).map (fun r => (r.hpid, true)) ++
        ((sortRecs (inelOf recs rejected rule)).take
            (3 - (eligOf recs rejected rule).length)).map
          (fun r => (r.hpid, false)) := by
  intro recs rejected rule hlt
  have hlen : (sortRecs (eligOf recs rejected rule)).length =
      (eligOf recs rejected rule).length := length_sortBy
  have htake : (sortRecs (eligOf recs rejected rule)).take 3 =
      sortRecs (eligOf recs rejected rule) :=
    List.take_of_length_le (by omega)
  unfold rank3
  dsimp only
  rw [htake, List.map_append, hlen]
  congr 1
  · apply List.map_congr_left
    intro r hr
    rw [(List.mem_filter.mp (mem_sortBy.mp hr)).2]
  · apply List.map_congr_left
    intro r hr
    have h2 := (List.mem_filter.mp (mem_sortBy.mp (List.mem_of_mem_take hr))).2
    rw [Bool.not_eq_true'] at h2
    rw [h2]

/-- Witness for C7: one eligible record between two ineligible ones. -/
theorem claim_C7_witness :
    (eligOf c7recs [] (rules3 .stroke)).length < 3 ∧
    (rank3 c7recs [] (rules3 .stroke)).1 =
      (sortRecs (eligOf c7recs [] (rules3 .stroke))).map (fun r => (r.hpid, true)) ++
      ((sortRecs (inelOf c7recs [] (rules3 .stroke))).take
          (3 - (eligOf c7recs [] (rules3 .stroke)).length)).map
        (fun r => (r.hpid, false)) :=
  ⟨by decide, claim_C7 c7recs [] (rules3 .stroke) (by decide)⟩

/-- C2: for the five symptom rules whose bonus thresholds are numeric,
`suitability_score` computes exactly the reference score of spec section
4.2; but for the pediatric rule, whose bonus list stores the string
threshold "Y", the scorer evaluates `int("Y")` as soon as a record's
`hv10` cell is anything but a yes-flag and raises `ValueError` instead
of returning a score. -/
theorem claim_C2 :
    (∀ (row : String → Option String) (d : ℚ) (sym : Symptom),
      sym ≠ Symptom.pediatric →
      suitability_score row (some d) sym = some (spec_score row d sym)) ∧
    suitability_score c2row (some 1) Symptom.pediatric = none := by
  constructor
  · intro row d sym hsym
    have hbc : pyBonusCount row (rules2 sym).bonus
        = some (specBonusCount row (rules2 sym).bonus) := by
      cases sym
      case pediatric => exact absurd rfl hsym
      all_goals exact pyBonusCount_all_num row _ (by decide)
    rw [suitability_unfold row d sym _ hbc]
    rfl
  · decide

/-- Witness for C2's refinement part at the stroke rule and a record
carrying beds and a distance of 7 km. -/
theorem claim_C2_witness :
    Symptom.stroke ≠ Symptom.pediatric ∧
    suitability_score c5A.fields (some 7) .stroke =
      some (spec_score c5A.fields 7 .stroke) :=
  ⟨by decide, claim_C2.1 c5A.fields 7 .stroke (by decide)⟩

/-- C8: holding the record and symptom fixed, a larger distance never
yields a larger returned score (the distance weight of every rule in the
table is negative, and clamping and rounding are monotone). -/
theorem claim_C8 :
    ∀ (row : String → Option String) (sym : Symptom) (d1 d2 x y : ℚ),
      0 ≤ d1 → d1 ≤ d2 →
      suitability_score row (some d1) sym = some x →
      suitability_score row (some d2) sym = some y → y ≤ x := by
  intro row sym d1 d2 x y _h0 h12 hx hy
  cases hbc : pyBonusCount row (rules2 sym).bonus with
  | none =>
    unfold suitability_score at hx
    dsimp only at hx
    rw [hbc] at hx
    simp at hx
  | some bc =>
    rw [suitability_unfold row d1 sym bc hbc] at hx
    rw [suitability_unfold row d2 sym bc hbc] at hy
    rw [← Option.some.inj hx, ← Option.some.inj hy]
    apply scoreShape_mono
    have hw : (rules2 sym).weights.distance < 0 := by
      cases sym <;> norm_num [rules2]
    have hmul : (rules2 sym).weights.distance * d2
        ≤ (rules2 sym).weights.distance * d1 :=
      mul_le_mul_of_nonpos_left h12 (le_of_lt hw)
    linarith

lemma score_empty_stroke1 : suitability_score wEmptyRow (some 1) .stroke = some 49 := by
  rw [suitability_unfold wEmptyRow 1 .stroke 0 (by decide)]
  rw [show coreBeds wEmptyRow = 0 from (by decide),
    show commonEquipCount wEmptyRow = 0 from (by decide)]
  simp only [rules2]
  norm_num [show (min (0 : ℤ) 50) = (0 : ℤ) from (by decide)]
  rw [scoreShape_mid (-2) 49 (by norm_num) (by norm_num) (by norm_num)]
  norm_num

lemma score_empty_stroke2 : suitability_score wEmptyRow (some 2) .stroke = some 48 := by
  rw [suitability_unfold wEmptyRow 2 .stroke 0 (by decide)]
  rw [show coreBeds wEmptyRow = 0 from (by decide),
    show commonEquipCount wEmptyRow = 0 from (by decide)]
  simp only [rules2]
  norm_num [show (min (0 : ℤ) 50) = (0 : ℤ) from (by decide)]
  rw [scoreShape_mid (-4) 48 (by norm_num) (by norm_num) (by norm_num)]
  norm_num

/-- Witness for C8: the empty record under the stroke rule scores 49.0
at 1 km and 48.0 at 2 km. -/
theorem claim_C8_witness :
    (0 : ℚ) ≤ 1 ∧ (1 : ℚ) ≤ 2 ∧
    suitability_score wEmptyRow (some 1) .stroke = some 49 ∧
    suitability_score wEmptyRow (some 2) .stroke = some 48 ∧
    (48 : ℚ) ≤ 49 :=
  ⟨by norm_num, by norm_num, score_empty_stroke1, score_empty_stroke2,
   claim_C8 wEmptyRow .stroke 1 2 49 48 (by norm_num) (by norm_num)
     score_empty_stroke1 score_empty_stroke2⟩

/-- C9: a missing (None) distance cell and a zero distance produce the
same score — the distance term degrades to exactly 0 via the Python
falsy `or` — and this is the most favourable treatment: a score returned
at any non-negative distance never exceeds the missing-distance
score. -/
theorem claim_C9 :
    ∀ (row : String → Option String) (sym : Symptom),
      suitability_score row none sym = suitability_score row (some 0) sym ∧
      (∀ (d x y : ℚ), 0 ≤ d →
        suitability_score row (some d) sym = some x →
        suitability_score row none sym = some y → x ≤ y) := by
  intro row sym
  have hzero : suitability_score row none sym
      = suitability_score row (some 0) sym := by
    unfold suitability_score
    dsimp only
    rw [effDist_some]
    rfl
  refine ⟨hzero, ?_⟩
  intro d x y h0 hx hy
  rw [hzero] at hy
  cases hbc : pyBonusCount row (rules2 sym).bonus with
  | none =>
    unfold suitability_score at hx
    dsimp only at hx
    rw [hbc] at hx
    simp at hx
  | some bc =>
    rw [suitability_unfold row d sym bc hbc] at hx
    rw [suitability_unfold row 0 sym bc hbc] at hy
    rw [← Option.some.inj hx, ← Option.some.inj hy]
    apply scoreShape_mono
    have hw : (rules2 sym).weights.distance < 0 := by
      cases sym <;> norm_num [rules2]
    have hmul : (rules2 sym).weights.distance * d
        ≤ (rules2 sym).weights.distance * 0 :=
      mul_le_mul_of_nonpos_left h0 (le_of_lt hw)
    nlinarith

lemma score_empty_stemi3 : suitability_score wEmptyRow (some 3) .stemi = some 47 := by
  rw [suitability_unfold wEmptyRow 3 .stemi 0 (by decide)]
  rw [show coreBeds wEmptyRow = 0 from (by decide),
    show commonEquipCount wEmptyRow = 0 from (by decide)]
  simp only [rules2]
  norm_num [show (min (0 : ℤ) 50) = (0 : ℤ) from (by decide)]
  rw [scoreShape_mid (-6) 47 (by norm_num) (by norm_num) (by norm_num)]
  norm_num

lemma score_empty_stemi_none : suitability_score wEmptyRow none .stemi = some 50 := by
  have h : suitability_score wEmptyRow (some 0) .stemi = some 50 := by
    rw [suitability_unfold wEmptyRow 0 .stemi 0 (by decide)]
    rw [show coreBeds wEmptyRow = 0 from (by decide),
      show commonEquipCount wEmptyRow = 0 from (by decide)]
    simp only [rules2]
    norm_num [show (min (0 : ℤ) 50) = (0 : ℤ) from (by decide)]
    rw [scoreShape_mid 0 50 (by norm_num) (by norm_num) (by norm_num)]
    norm_num
  rw [← h]
  unfold suitability_score
  dsimp only
  rw [effDist_some]
  rfl

/-- Witness for C9: the empty record under the STEMI rule scores 50.0
with a missing distance and 47.0 at 3 km. -/
theorem claim_C9_witness :
    suitability_score wEmptyRow none .stemi
      = suitability_score wEmptyRow (some 0) .stemi ∧
    (0 : ℚ) ≤ 3 ∧
    suitability_score wEmptyRow (some 3) .stemi = some 47 ∧
    suitability_score wEmptyRow none .stemi = some 50 ∧
    (47 : ℚ) ≤ 50 :=
  ⟨(claim_C9 wEmptyRow .stemi).1, by norm_num, score_empty_stemi3,
   score_empty_stemi_none,
   (claim_C9 wEmptyRow .stemi).2 3 47 50 (by norm_num) score_empty_stemi3
     score_empty_stemi_none⟩
